import Mathlib

/-!
# Verification of the rust-find traversal/filter/thread-sizing engine

Shallow embedding of the core of the `rust-find` repository:

* `src/find.rs` — `FindOptions`, `find_files`, `traverse_directory`,
  `parallel_traverse_directory`/`parallel_traverse_impl`;
* `src/finder/walker.rs` — `FileWalker::walk`, `FileWalkerIterator::next`;
* `src/finder/mod.rs` — `Finder::new`, `Finder::with_filter`, `Finder::find`,
  `Finder::find_parallel`, `Finder::count_directories`;
* `src/finder/thread_pool.rs` — `ThreadPoolConfig`, `AdaptiveThreadPool`;
* `src/finder/filter.rs` — `NameFilter`, `MultiNameFilter`;
* `src/errors.rs` — `FindError`.

The filesystem is modelled as a finite tree of named nodes (`FSNode`);
paths are lists of path components relative to the traversal root.
Machine `usize` values are modelled as `Nat` (the sizing logic never
overflows for representable directory counts).  External crates
(`walkdir`, `glob`, `num_cpus`) are modelled from their documented
behaviour where the repository relies on them; `num_cpus::get()` is an
explicit parameter `cpu` of the functions that read it.
-/

/-- A filesystem path, as its list of components relative to the root of
the traversal (`[]` is the root itself). -/
abbrev FPath := List String

/-- Model of `std::io::ErrorKind`, restricted to the kinds the repository
distinguishes (`PermissionDenied`, `NotFound`, everything else). -/
inductive IoKind where
  | permissionDenied
  | notFound
  | otherKind
deriving DecidableEq, Repr

/-- Model of `FindError` (src/errors.rs), restricted to the variants the
embedded code constructs.  `FilesystemError` keeps the `io::ErrorKind` of
its `source` field in place of the full `std::io::Error`. -/
inductive FindError where
  | FileNotFound (path : FPath)
  | PermissionDenied (path : FPath)
  | FilesystemError (kind : IoKind) (path : FPath)
  | PatternError (message : String)
  | InvalidFileType (code : String)
  | WalkDirError (message : String)
  | Other (message : String)
deriving DecidableEq, Repr

/-- A filesystem tree node: a regular file, a directory with its children,
a symbolic link whose target is a directory (with the target's children),
or a symbolic link whose target is a regular file.  Cycles cannot occur in
this model, matching the error-free directory trees the claims quantify
over. -/
inductive FSNode where
  | file (name : String) : FSNode
  | dir (name : String) (children : List FSNode) : FSNode
  | symlinkDir (name : String) (children : List FSNode) : FSNode
  | symlinkFile (name : String) : FSNode
deriving Repr

namespace FSNode

/-- The node's base name (`file_name()` of its path). -/
def name : FSNode → String
  | .file n => n
  | .dir n _ => n
  | .symlinkDir n _ => n
  | .symlinkFile n => n

/-- `Path::is_dir()` — follows symlinks, so a symlink to a directory
counts as a directory. -/
def isDirResolved : FSNode → Bool
  | .dir _ _ => true
  | .symlinkDir _ _ => true
  | _ => false

/-- `is_symlink` (src/find.rs lines 300–304): `symlink_metadata`-based
check, true exactly for symbolic links. -/
def isLink : FSNode → Bool
  | .symlinkDir _ _ => true
  | .symlinkFile _ => true
  | _ => false

end FSNode

/-! ## Thread sizing (src/finder/thread_pool.rs) -/

/-- `usize::MAX` on a 64-bit target. -/
def USIZE_MAX : Nat := 2 ^ 64 - 1

/-- `ThreadPoolConfig` (src/finder/thread_pool.rs lines 10–20). -/
structure ThreadPoolConfig where
  min_threads : Nat
  max_threads : Nat
  dirs_per_thread : Nat
  auto_adjust : Bool
deriving DecidableEq, Repr

/-- The run-scoped state of `AdaptiveThreadPool` (src/finder/thread_pool.rs
lines 36–44): its configuration and the two atomic counters. -/
structure AdaptiveThreadPool where
  config : ThreadPoolConfig
  directory_count : Nat
  current_threads : Nat
deriving DecidableEq, Repr

namespace AdaptiveThreadPool

/-- `AdaptiveThreadPool::new` (lines 48–56): counters start at 0 and
`config.min_threads`. -/
def new (config : ThreadPoolConfig) : AdaptiveThreadPool :=
  { config := config, directory_count := 0, current_threads := config.min_threads }

/-- `AdaptiveThreadPool::update_directory_count` (lines 59–62). -/
def update_directory_count (p : AdaptiveThreadPool) (count : Nat) : AdaptiveThreadPool :=
  { p with directory_count := count }

/-- The `(dir_count as f64 / dirs_per_thread as f64).ceil() as usize`
expression of line 83.  For `dirs_per_thread = 0` the `f64` division gives
`+inf` and the saturating cast gives `usize::MAX`; otherwise it is the
exact ceiling (exact as long as both operands fit in an `f64` mantissa,
which any real directory count does). -/
def idealThreads (dir_count dirs_per_thread : Nat) : Nat :=
  if dirs_per_thread = 0 then USIZE_MAX
  else (dir_count + dirs_per_thread - 1) / dirs_per_thread

/-- `AdaptiveThreadPool::adjust_thread_count` (lines 65–97).  `cpu` is the
value of `num_cpus::get()`.  Returns the new thread count together with
the updated pool state. -/
def adjust_thread_count (cpu : Nat) (p : AdaptiveThreadPool) : Nat × AdaptiveThreadPool :=
  if !p.config.auto_adjust then
    (p.current_threads, p)
  else
    let dir_count := p.directory_count
    let new_threads :=
      if dir_count = 0 then
        p.config.min_threads
      else
        (((idealThreads dir_count p.config.dirs_per_thread).max p.config.min_threads).min
            p.config.max_threads).min
          (cpu.max p.config.min_threads)
    (new_threads, { p with current_threads := new_threads })

/-- `AdaptiveThreadPool::get_thread_count` (lines 100–102). -/
def get_thread_count (p : AdaptiveThreadPool) : Nat :=
  p.current_threads

end AdaptiveThreadPool

/-! ## Glob matching (external `glob` crate)

The repository matches glob patterns against entry *base names* only, so
no pattern or subject ever contains a path separator, and no claim uses
character classes or escapes.  `globAux` models the documented semantics
of `glob::Pattern::matches` for such patterns: `*` matches any (possibly
empty) sequence of characters, `?` matches exactly one character, every
other character matches itself.  The `fuel` argument only makes the
recursion structural; every call site passes enough fuel
(`pattern length + subject length`), which the matcher never exhausts. -/

def globAux : Nat → List Char → List Char → Bool
  | _, [], [] => true
  | _, [], _ :: _ => false
  | 0, _ :: _, _ => false
  | fuel + 1, '*' :: ps, s =>
      globAux fuel ps s ||
        (match s with
         | [] => false
         | _ :: s' => globAux fuel ('*' :: ps) s')
  | _ + 1, '?' :: _, [] => false
  | fuel + 1, '?' :: ps, _ :: s' => globAux fuel ps s'
  | _ + 1, _ :: _, [] => false
  | fuel + 1, c :: ps, c' :: s' => c = c' && globAux fuel ps s'

/-- `Pattern::new(pat)` followed by `.matches(s)`. -/
def globMatches (pat s : String) : Bool :=
  globAux (pat.length + s.length) pat.toList s.toList

/-- Model of Rust `str::to_lowercase`: character-wise lowercasing.
`Char.toLower` agrees with Rust on ASCII, which covers every name and
pattern the claims mention. -/
def toLowercase (s : String) : String := ⟨s.toList.map Char.toLower⟩

/-! ## Name filters (src/finder/filter.rs) -/

/-- `NameFilter` (src/finder/filter.rs lines 81–85).  The compiled
`pattern` field is kept as the pattern string; matching uses
`globMatches`. -/
structure NameFilter where
  pattern : String
  original_pattern : String
  ignore_case : Bool
deriving DecidableEq, Repr

namespace NameFilter

/-- `NameFilter::new` (lines 95–106): case-sensitive filter.  Pattern
compilation succeeds for every separator-free, class-free pattern, which
covers all patterns the claims mention; the `Except` mirrors the
`FindResult` signature. -/
def new (pattern : String) : Except FindError NameFilter :=
  .ok { pattern := pattern, original_pattern := pattern, ignore_case := false }

/-- `NameFilter::new_ignore_case` (lines 120–124). -/
def new_ignore_case (pattern : String) : Except FindError NameFilter :=
  (new pattern).map fun f => { f with ignore_case := true }

/-- `NameFilter::matches_case_sensitive` (lines 129–131). -/
def matches_case_sensitive (f : NameFilter) (name : String) : Bool :=
  globMatches f.pattern name

/-- `NameFilter::matches_case_insensitive` (lines 134–140): lower-cases
both the subject and the original pattern, recompiles, and matches. -/
def matches_case_insensitive (f : NameFilter) (name : String) : Bool :=
  globMatches (toLowercase f.original_pattern) (toLowercase name)

/-- `FileFilter::matches` for `NameFilter` (lines 144–154), applied to the
entry's base name (`entry.file_name().to_str()`; every name in the model
is valid UTF-8). -/
def matchesName (f : NameFilter) (name : String) : Bool :=
  if f.ignore_case then f.matches_case_insensitive name
  else f.matches_case_sensitive name

end NameFilter

/-- `MultiNameFilter` (src/finder/filter.rs lines 176–179). -/
structure MultiNameFilter where
  patterns : List NameFilter
  any_match : Bool
deriving DecidableEq, Repr

namespace MultiNameFilter

/-- `MultiNameFilter::validate_patterns` (lines 201–210): rejects the
first empty pattern string. -/
def validate_patterns : List String → Except FindError Unit
  | [] => .ok ()
  | p :: rest =>
      if p.isEmpty then
        .error (.PatternError "Empty pattern is not allowed")
      else
        validate_patterns rest

/-- `MultiNameFilter::create_filters` (lines 213–224): one `NameFilter`
per pattern, case-insensitive when requested. -/
def create_filters (ignore_case : Bool) : List String → Except FindError (List NameFilter)
  | [] => .ok []
  | p :: rest => do
      let f ← if ignore_case then NameFilter.new_ignore_case p else NameFilter.new p
      let fs ← create_filters ignore_case rest
      .ok (f :: fs)

/-- `MultiNameFilter::new` (lines 190–198): validation first, then filter
construction; OR logic by default. -/
def new (patterns : List String) (ignore_case : Bool) : Except FindError MultiNameFilter := do
  validate_patterns patterns
  let fs ← create_filters ignore_case patterns
  .ok { patterns := fs, any_match := true }

/-- `FileFilter::matches` for `MultiNameFilter` (lines 250–262). -/
def matchesName (m : MultiNameFilter) (name : String) : Bool :=
  if m.patterns.isEmpty then true
  else if m.any_match then m.patterns.any (·.matchesName name)
  else m.patterns.all (·.matchesName name)

end MultiNameFilter

/-! ## The `find` module (src/find.rs) -/

namespace find

/-- `FindOptions` (src/find.rs lines 9–25). -/
structure FindOptions where
  max_depth : Option Nat
  follow_links : Bool
  absolute_path : Bool
  relative_path : Bool
  parallel : Bool
  name_patterns : List String
  ignore_case : Bool
deriving Repr

/-- `FindOptions::format_path` (src/find.rs lines 29–43).  The
`absolute_path` / `relative_path` modes re-express the same filesystem
object against the ambient working directory, which the root-relative
path model does not represent; in the model the function returns the path
unchanged (the function's default branch).  Both traversal variants call
this same function on the same entries, so claims comparing them are
unaffected. -/
def FindOptions.format_path (_o : FindOptions) (p : FPath) : FPath := p

mutual

/-- `traverse_directory` (src/find.rs lines 193–297) together with its
entry loop `traverseEntries`.  `cs` are the children of the directory
being listed (located at `pfx` from the root), `d` its depth
(`current_depth`); the root directory is listed at depth 0.  The model is
the error-free run: `read_dir` succeeds everywhere and every entry is
readable, matching the claims, which quantify over trees on which no walk
encounters an error. -/
def traverse_directory (o : FindOptions) (pfx : FPath) (cs : List FSNode) (d : Nat) :
    List FPath :=
  match o.max_depth with
  | some m =>
      if d > m then []
      else if d = m then cs.map (fun c => o.format_path (pfx ++ [c.name]))
      else traverseEntries o pfx cs d
  | none => traverseEntries o pfx cs d

/-- The `for entry in entries` loop of `traverse_directory` (src/find.rs
lines 265–294): push the (formatted) path of each child; recurse into a
child that `is_dir()` when it is not a symlink, or when it is one and
`follow_links` is set. -/
def traverseEntries (o : FindOptions) (pfx : FPath) (cs : List FSNode) (d : Nat) :
    List FPath :=
  match cs with
  | [] => []
  | .file n :: rest => o.format_path (pfx ++ [n]) :: traverseEntries o pfx rest d
  | .symlinkFile n :: rest => o.format_path (pfx ++ [n]) :: traverseEntries o pfx rest d
  | .dir n ch :: rest =>
      o.format_path (pfx ++ [n]) ::
        (traverse_directory o (pfx ++ [n]) ch (d + 1) ++ traverseEntries o pfx rest d)
  | .symlinkDir n ch :: rest =>
      o.format_path (pfx ++ [n]) ::
        ((if o.follow_links then traverse_directory o (pfx ++ [n]) ch (d + 1) else []) ++
          traverseEntries o pfx rest d)

end

mutual

/-- `parallel_traverse_impl` (src/find.rs lines 139–190) together with its
per-entry body `parallelEntries`: the entries it sends over the channel,
in spawn order (the claims about it are order-insensitive).  The depth
gate only rejects `current_depth > max_depth`; the listing at the
boundary depth still runs, and recursion into children is cut off one
level later by the same gate. -/
def parallel_traverse_impl (o : FindOptions) (pfx : FPath) (cs : List FSNode) (d : Nat) :
    List FPath :=
  match o.max_depth with
  | some m => if d > m then [] else parallelEntries o pfx cs d
  | none => parallelEntries o pfx cs d

/-- The `entries.par_bridge().for_each_with(...)` body of
`parallel_traverse_impl` (src/find.rs lines 163–187): send the formatted
path of every child; recurse into a child that `is_dir()` when it is not
a symlink or `follow_links` is set. -/
def parallelEntries (o : FindOptions) (pfx : FPath) (cs : List FSNode) (d : Nat) :
    List FPath :=
  match cs with
  | [] => []
  | .file n :: rest => o.format_path (pfx ++ [n]) :: parallelEntries o pfx rest d
  | .symlinkFile n :: rest => o.format_path (pfx ++ [n]) :: parallelEntries o pfx rest d
  | .dir n ch :: rest =>
      o.format_path (pfx ++ [n]) ::
        (parallel_traverse_impl o (pfx ++ [n]) ch (d + 1) ++ parallelEntries o pfx rest d)
  | .symlinkDir n ch :: rest =>
      o.format_path (pfx ++ [n]) ::
        ((if o.follow_links then parallel_traverse_impl o (pfx ++ [n]) ch (d + 1) else []) ++
          parallelEntries o pfx rest d)

end

/-- `parallel_traverse_directory` (src/find.rs lines 106–136): spawn the
traversal and collect everything received from the channel.  In the
error-free run the collected entries are exactly those
`parallel_traverse_impl` sends. -/
def parallel_traverse_directory (o : FindOptions) (cs : List FSNode) : List FPath :=
  parallel_traverse_impl o [] cs 0

/-- The children of the node `find_files` was pointed at, when
`path.is_dir()` holds (`read_dir` follows a symlink to a directory). -/
def rootChildren : FSNode → Option (List FSNode)
  | .dir _ ch => some ch
  | .symlinkDir _ ch => some ch
  | _ => none

/-- The name-pattern predicate of `find_files` (src/find.rs lines 76–99):
the entry's file name (the path's last component) matches some pattern,
both lower-cased first when `ignore_case` is set.  A path with no file
name is rejected. -/
def matchesPatterns (o : FindOptions) (p : FPath) : Bool :=
  match p.getLast? with
  | some name =>
      let text_to_match := if o.ignore_case then toLowercase name else name
      o.name_patterns.any fun pat =>
        let pattern_to_match := if o.ignore_case then toLowercase pat else pat
        globMatches pattern_to_match text_to_match
  | none => false

/-- `find_files` (src/find.rs lines 47–103).  The root exists in the
model (it is given as a tree); a non-directory root is the
`FindError::Other` early return.  Traversal is parallel or sequential by
`options.parallel`, then the name-pattern filter is applied when
`name_patterns` is non-empty. -/
def find_files (root : FSNode) (o : FindOptions) : Except FindError (List FPath) :=
  match rootChildren root with
  | none => .error (.Other "路径不是一个目录")
  | some cs =>
      let results :=
        if o.parallel then parallel_traverse_directory o cs
        else traverse_directory o [] cs 0
      if o.name_patterns.isEmpty then .ok results
      else .ok (results.filter (matchesPatterns o))

end find

/-! ## The `walkdir` crate (external), modelled from its documented
behaviour

`WalkDir::new(root)` yields the root entry first (at depth 0), then a
depth-first pre-order of the descendants.  `max_depth(n)` yields only
entries of depth at most `n` (so it descends out of a directory at depth
`d` only when `d < n`); the builder's default is `usize::MAX`.  A symlink
to a directory is yielded but not descended into unless
`follow_links(true)`, in which case its reported file type is the
target's. -/

/-- The file-type tag a walkdir `DirEntry` reports. -/
inductive FType where
  | regular
  | directory
  | symlink
deriving DecidableEq, Repr

/-- Model of a walkdir `DirEntry`: its path, base name (`file_name()`),
depth from the root, and file type. -/
structure DirEntry where
  path : FPath
  file_name : String
  depth : Nat
  file_type : FType
deriving DecidableEq, Repr

mutual

/-- The walkdir entry stream for the subtree rooted at a node sitting at
`pfx` with depth `d`, under `follow_links = follow` and
`max_depth = md`. -/
def walkdirNode (follow : Bool) (md : Nat) (pfx : FPath) (d : Nat) : FSNode → List DirEntry
  | .file n => [⟨pfx ++ [n], n, d, .regular⟩]
  | .symlinkFile n => [⟨pfx ++ [n], n, d, if follow then .regular else .symlink⟩]
  | .dir n ch =>
      ⟨pfx ++ [n], n, d, .directory⟩ ::
        (if d < md then walkdirChildren follow md (pfx ++ [n]) (d + 1) ch else [])
  | .symlinkDir n ch =>
      ⟨pfx ++ [n], n, d, if follow then .directory else .symlink⟩ ::
        (if follow && d < md then walkdirChildren follow md (pfx ++ [n]) (d + 1) ch else [])

/-- The concatenated walkdir streams of a list of sibling nodes. -/
def walkdirChildren (follow : Bool) (md : Nat) (pfx : FPath) (d : Nat) :
    List FSNode → List DirEntry
  | [] => []
  | c :: rest => walkdirNode follow md pfx d c ++ walkdirChildren follow md pfx d rest

end

/-- The full walkdir stream from a root node: the root entry itself has
path `[root.name]` and depth 0. -/
def walkdirTree (follow : Bool) (md : Nat) (root : FSNode) : List DirEntry :=
  walkdirNode follow md [] 0 root

/-- The path walkdir reports for the root entry. -/
def rootPath (root : FSNode) : FPath := [root.name]

/-- A walkdir iterator item: `Ok(DirEntry)` or a walkdir error.  A
walkdir error exposes an optional offending path (`err.path()`), an
optional underlying `io::Error` kind (`err.io_error()`), and a display
message (`err.to_string()`). -/
structure WalkError where
  path : Option FPath
  io_kind : Option IoKind
  msg : String
deriving DecidableEq, Repr

/-- One item of the walkdir iteration. -/
inductive WalkItem where
  | ok (entry : DirEntry)
  | err (e : WalkError)
deriving DecidableEq, Repr

/-! ## The `finder` module (src/finder/options.rs, walker.rs, mod.rs) -/

namespace finder

/-- `FindOptions` (src/finder/options.rs lines 22–50). -/
structure FindOptions where
  max_depth : Option Nat
  follow_links : Bool
  ignore_permission_errors : Bool
  ignore_io_errors : Bool
  ignore_hidden : Bool
  max_threads : Nat
  min_threads : Nat
  dirs_per_thread : Nat
  auto_adjust : Bool
deriving DecidableEq, Repr

/-- `FindOptions::new` (src/finder/options.rs lines 60–73); `cpu` is
`num_cpus::get()`. -/
def FindOptions.new (cpu : Nat) : FindOptions :=
  { max_depth := none
    follow_links := false
    ignore_permission_errors := true
    ignore_io_errors := false
    ignore_hidden := true
    max_threads := cpu
    min_threads := 1
    dirs_per_thread := 10
    auto_adjust := true }

/-- `Rust str::starts_with('.')` on an entry name. -/
def startsWithDot (s : String) : Bool := s.toList.head? == some '.'

/-- The loop body of `FileWalker::walk` (src/finder/walker.rs lines
33–75) over the stream of walkdir items: the first `Ok` item is skipped
(`is_first`), later `Ok` entries are collected; an error with a path and
an underlying permission-denied I/O error aborts with
`FindError::PermissionDenied` unless `ignore_permission_errors`; an error
with a path and any other underlying I/O error aborts with
`FindError::FilesystemError` unless `ignore_io_errors`; an error with a
path but no I/O error always aborts with `FindError::WalkDirError`; an
error without a path is passed over silently. -/
def walkLoop (o : FindOptions) (is_first : Bool) : List WalkItem → Except FindError (List DirEntry)
  | [] => .ok []
  | .ok e :: rest =>
      if is_first then walkLoop o false rest
      else (walkLoop o false rest).map (e :: ·)
  | .err w :: rest =>
      match w.path with
      | some p =>
          match w.io_kind with
          | some .permissionDenied =>
              if !o.ignore_permission_errors then .error (.PermissionDenied p)
              else walkLoop o is_first rest
          | some k =>
              if !o.ignore_io_errors then .error (.FilesystemError k p)
              else walkLoop o is_first rest
          | none => .error (.WalkDirError w.msg)
      | none => walkLoop o is_first rest

/-- `FileWalker::walk` (src/finder/walker.rs lines 24–76) applied to an
arbitrary walkdir item stream (`is_first` starts true). -/
def FileWalker.walk (o : FindOptions) (items : List WalkItem) : Except FindError (List DirEntry) :=
  walkLoop o true items

/-- The walkdir item stream `FileWalker::walk` and `FileWalkerIterator`
build for a root (walker.rs lines 25–31 and 91–96): `follow_links` from
the options and `max_depth` only when `Some` (walkdir's builder default is
`usize::MAX`).  On an error-free tree every item is `Ok`. -/
def walkItems (o : FindOptions) (root : FSNode) : List WalkItem :=
  (walkdirTree o.follow_links (o.max_depth.getD USIZE_MAX) root).map WalkItem.ok

/-- The sequence of items successive `FileWalkerIterator::next` calls
(src/finder/walker.rs lines 110–155) return until the underlying walkdir
iterator is exhausted.  The first `Ok` entry flips `skip_root` and is
dropped if its path is the stored root path; an error with a path and a
permission-denied I/O error is skipped under `ignore_permission_errors`
and otherwise surfaced as `FindError::PermissionDenied`; an error with a
path and another I/O error kind is skipped under `ignore_io_errors` and
otherwise surfaced as `FindError::FilesystemError`; any other error is
skipped under `ignore_io_errors` and otherwise surfaced as
`FindError::WalkDirError`. -/
def iterDrain (o : FindOptions) (root_path : FPath) (skip_root : Bool) :
    List WalkItem → List (Except FindError DirEntry)
  | [] => []
  | .ok e :: rest =>
      if !skip_root then
        if e.path = root_path then iterDrain o root_path true rest
        else .ok e :: iterDrain o root_path true rest
      else .ok e :: iterDrain o root_path true rest
  | .err w :: rest =>
      match w.path, w.io_kind with
      | some p, some .permissionDenied =>
          if o.ignore_permission_errors then iterDrain o root_path skip_root rest
          else .error (.PermissionDenied p) :: iterDrain o root_path skip_root rest
      | some p, some k =>
          if o.ignore_io_errors then iterDrain o root_path skip_root rest
          else .error (.FilesystemError k p) :: iterDrain o root_path skip_root rest
      | _, _ =>
          if o.ignore_io_errors then iterDrain o root_path skip_root rest
          else .error (.WalkDirError w.msg) :: iterDrain o root_path skip_root rest

/-- `Finder` (src/finder/mod.rs lines 23–27). -/
structure Finder where
  options : FindOptions
  thread_pool : AdaptiveThreadPool
deriving DecidableEq, Repr

/-- `Finder::new` (src/finder/mod.rs lines 31–43). -/
def Finder.new (options : FindOptions) : Finder :=
  { options := options
    thread_pool := AdaptiveThreadPool.new
      { min_threads := options.min_threads
        max_threads := options.max_threads
        dirs_per_thread := options.dirs_per_thread
        auto_adjust := options.auto_adjust } }

/-- `Finder::with_filter` (src/finder/mod.rs lines 46–52): the filter
argument is dropped and `self` is returned unchanged. -/
def Finder.with_filter (f : Finder) (_filter : DirEntry → Bool) : Finder := f

/-- `Finder::count_directories` (src/finder/mod.rs lines 96–104). -/
def Finder.count_directories (f : Finder) (root : FSNode) : Nat :=
  ((walkdirTree f.options.follow_links (f.options.max_depth.getD USIZE_MAX) root).filter
    (fun entry => entry.file_type == .directory)).length

/-- The entry stage of `Finder::find_parallel` (src/finder/mod.rs lines
78–91) on an error-free tree (`filter_map(Result::ok)` makes it drop
errors): walk with the options' link/depth settings, keep entries that
pass the hidden-name check (`!ignore_hidden ||
!file_name.starts_with('.')`) and then the supplied filter. -/
def Finder.parallel_entries (f : Finder) (root : FSNode) (filter : DirEntry → Bool) :
    List DirEntry :=
  ((walkdirTree f.options.follow_links (f.options.max_depth.getD USIZE_MAX) root).filter
      (fun entry => !f.options.ignore_hidden || !(startsWithDot entry.file_name))).filter
    (fun entry => filter entry)

/-- `Finder::find_parallel` (src/finder/mod.rs lines 63–93): count
directories, update and resize the thread pool (`cpu` is
`num_cpus::get()`), then return the paths of the filtered walk entries
together with the finder carrying the updated pool counters. -/
def Finder.find_parallel (f : Finder) (cpu : Nat) (root : FSNode) (filter : DirEntry → Bool) :
    List FPath × Finder :=
  let dir_count := f.count_directories root
  let pool := f.thread_pool.update_directory_count dir_count
  let pool := (pool.adjust_thread_count cpu).2
  ((f.parallel_entries root filter).map (·.path), { f with thread_pool := pool })

/-- `Finder::find` (src/finder/mod.rs lines 55–60): delegates to
`find_parallel`. -/
def Finder.find (f : Finder) (cpu : Nat) (root : FSNode) (filter : DirEntry → Bool) :
    List FPath × Finder :=
  f.find_parallel cpu root filter

end finder

/-! ## Theorems -/

/-- At the boundary depth (`max_depth = some m`, listing at depth `m`),
the parallel entry loop emits exactly the formatted paths of the
immediate children: the recursive calls it still makes are cut off by the
depth gate at depth `m + 1`. -/
theorem find.parallelEntries_at_max (o : find.FindOptions) (m : Nat)
    (h : o.max_depth = some m) (pfx : FPath) (cs : List FSNode) :
    find.parallelEntries o pfx cs m = cs.map (fun c => o.format_path (pfx ++ [c.name])) := by
  induction cs with
  | nil => simp [find.parallelEntries]
  | cons c rest ih =>
    cases c <;>
      simp [find.parallelEntries, find.parallel_traverse_impl, h, Nat.lt_succ_self, ih,
        FSNode.name]

/-- The sequential traversal of src/find.rs emits the same list of paths
as the parallel traversal, for every directory, prefix and depth. -/
theorem find.traverse_eq_parallel (o : find.FindOptions) (pfx : FPath) (cs : List FSNode)
    (d : Nat) :
    find.traverse_directory o pfx cs d = find.parallel_traverse_impl o pfx cs d := by
  refine find.traverse_directory.induct o
    (fun pfx cs d => find.traverse_directory o pfx cs d = find.parallel_traverse_impl o pfx cs d)
    (fun pfx cs d => find.traverseEntries o pfx cs d = find.parallelEntries o pfx cs d)
    ?_ ?_ ?_ ?_ ?_ ?_ ?_ ?_ ?_ pfx cs d
  · intro pfx cs d m h hgt
    simp [find.traverse_directory, find.parallel_traverse_impl, h, hgt]
  · intro pfx cs m h _
    simp [find.traverse_directory, find.parallel_traverse_impl, h,
      find.parallelEntries_at_max o m h]
  · intro pfx cs d m h hgt hne ih
    simp [find.traverse_directory, find.parallel_traverse_impl, h, hgt, hne, ih]
  · intro pfx cs d h ih
    simp [find.traverse_directory, find.parallel_traverse_impl, h, ih]
  · intro pfx d
    simp [find.traverseEntries, find.parallelEntries]
  · intro pfx d n rest ih
    simp [find.traverseEntries, find.parallelEntries, ih]
  · intro pfx d n rest ih
    simp [find.traverseEntries, find.parallelEntries, ih]
  · intro pfx d n ch rest ih1 ih2
    simp [find.traverseEntries, find.parallelEntries, ih1, ih2]
  · intro pfx d n ch rest ih1 ih2
    simp [find.traverseEntries, find.parallelEntries, ih1, ih2]

/-- The sequential traversal reads only `max_depth` and `follow_links`
from the options: two option records agreeing on those fields traverse
identically. -/
theorem find.traverse_congr (o o' : find.FindOptions)
    (hm : o.max_depth = o'.max_depth) (hf : o.follow_links = o'.follow_links)
    (pfx : FPath) (cs : List FSNode) (d : Nat) :
    find.traverse_directory o pfx cs d = find.traverse_directory o' pfx cs d := by
  refine find.traverse_directory.induct o
    (fun pfx cs d => find.traverse_directory o pfx cs d = find.traverse_directory o' pfx cs d)
    (fun pfx cs d => find.traverseEntries o pfx cs d = find.traverseEntries o' pfx cs d)
    ?_ ?_ ?_ ?_ ?_ ?_ ?_ ?_ ?_ pfx cs d
  · intro pfx cs d m h hgt
    simp [find.traverse_directory, h, hm ▸ h, hgt]
  · intro pfx cs m h _
    simp [find.traverse_directory, find.FindOptions.format_path, h, hm ▸ h]
  · intro pfx cs d m h hgt hne ih
    simp [find.traverse_directory, h, hm ▸ h, hgt, hne, ih]
  · intro pfx cs d h ih
    simp [find.traverse_directory, h, hm ▸ h, ih]
  · intro pfx d
    simp [find.traverseEntries]
  · intro pfx d n rest ih
    simp [find.traverseEntries, find.FindOptions.format_path, ih]
  · intro pfx d n rest ih
    simp [find.traverseEntries, find.FindOptions.format_path, ih]
  · intro pfx d n ch rest ih1 ih2
    simp [find.traverseEntries, find.FindOptions.format_path, ih1, ih2]
  · intro pfx d n ch rest ih1 ih2
    simp [find.traverseEntries, find.FindOptions.format_path, hf, ih1, ih2]

/-- `find_files` returns the same value whichever traversal the
`parallel` flag selects. -/
theorem find.find_files_parallel_eq (root : FSNode) (o : find.FindOptions) :
    find.find_files root { o with parallel := true } =
      find.find_files root { o with parallel := false } := by
  have key : ∀ cs,
      find.parallel_traverse_directory { o with parallel := true } cs =
        find.traverse_directory { o with parallel := false } [] cs 0 := by
    intro cs
    rw [find.parallel_traverse_directory, ← find.traverse_eq_parallel]
    exact find.traverse_congr { o with parallel := true } { o with parallel := false }
      rfl rfl [] cs 0
  have hmp : find.matchesPatterns { o with parallel := true } =
      find.matchesPatterns { o with parallel := false } := rfl
  cases root <;>
    simp [find.find_files, find.rootChildren, key, hmp]

/-- C1: for every directory tree and option set on which neither walk
encounters a fatal error (the model's trees are error-free), the set of
paths `find_files` returns with `parallel = true`
(`parallel_traverse_directory`) equals the set it returns with
`parallel = false` (`traverse_directory`) on the same root and
options. -/
theorem C1_find_files_sequential_parallel_same_set (root : FSNode) (o : find.FindOptions)
    (p : FPath) :
    (∃ l, find.find_files root { o with parallel := true } = .ok l ∧ p ∈ l) ↔
    (∃ l, find.find_files root { o with parallel := false } = .ok l ∧ p ∈ l) := by
  rw [find.find_files_parallel_eq]

/-- C3 (amended): with `max_depth = 0`, the find.rs traversals
(`traverse_directory` and `parallel_traverse_directory`) return exactly
the root's immediate children; the walkdir-based variants
(`FileWalker::walk` and `FileWalkerIterator`) return no entries at all,
because walkdir's `max_depth(0)` yields only the root entry, which they
skip. -/
theorem C3_max_depth_zero_immediate_children (o : find.FindOptions) (cs : List FSNode)
    (o' : finder.FindOptions) (root : FSNode)
    (h : o.max_depth = some 0) (h' : o'.max_depth = some 0) :
    find.traverse_directory o [] cs 0 = cs.map (fun c => [c.name]) ∧
    find.parallel_traverse_directory o cs = cs.map (fun c => [c.name]) ∧
    finder.FileWalker.walk o' (finder.walkItems o' root) = .ok [] ∧
    finder.iterDrain o' (rootPath root) false (finder.walkItems o' root) = [] := by
  refine ⟨?_, ?_, ?_, ?_⟩
  · simp [find.traverse_directory, h, find.FindOptions.format_path]
  · rw [find.parallel_traverse_directory, find.parallel_traverse_impl, h]
    simp [find.parallelEntries_at_max o 0 h, find.FindOptions.format_path]
  · cases root <;>
      simp [finder.FileWalker.walk, finder.walkItems, walkdirTree, walkdirNode, h',
        finder.walkLoop]
  · cases root <;>
      simp [finder.walkItems, walkdirTree, walkdirNode, h', finder.iterDrain, rootPath,
        FSNode.name]

/-- C3 witness: on the tree `r/{a}` with `max_depth = 0`, the find.rs
traversals return exactly the immediate child `a` while the walkdir-based
walker returns nothing. -/
theorem C3_max_depth_zero_immediate_children_witness :
    find.traverse_directory ⟨some 0, false, false, false, false, [], false⟩ []
        [FSNode.file "a"] 0 = [["a"]] ∧
    find.parallel_traverse_directory ⟨some 0, false, false, false, false, [], false⟩
        [FSNode.file "a"] = [["a"]] ∧
    finder.FileWalker.walk ⟨some 0, false, true, false, true, 4, 1, 10, true⟩
        (finder.walkItems ⟨some 0, false, true, false, true, 4, 1, 10, true⟩
          (FSNode.dir "r" [FSNode.file "a"])) = .ok [] ∧
    finder.iterDrain ⟨some 0, false, true, false, true, 4, 1, 10, true⟩
        (rootPath (FSNode.dir "r" [FSNode.file "a"])) false
        (finder.walkItems ⟨some 0, false, true, false, true, 4, 1, 10, true⟩
          (FSNode.dir "r" [FSNode.file "a"])) = [] := by
  have h := C3_max_depth_zero_immediate_children
    ⟨some 0, false, false, false, false, [], false⟩ [FSNode.file "a"]
    ⟨some 0, false, true, false, true, 4, 1, 10, true⟩ (FSNode.dir "r" [FSNode.file "a"])
    rfl rfl
  exact ⟨h.1.trans (by simp [FSNode.name]), h.2.1.trans (by simp [FSNode.name]),
    h.2.2.1, h.2.2.2⟩

/-- C3 counterexample to the claim as stated: on the tree `r/{a}` with
`max_depth = 0`, `FileWalker::walk` returns no entries instead of the
root's immediate child `a`. -/
theorem C3_counterexample_walker_empty :
    finder.FileWalker.walk ⟨some 0, false, true, false, true, 4, 1, 10, true⟩
        (finder.walkItems ⟨some 0, false, true, false, true, 4, 1, 10, true⟩
          (FSNode.dir "r" [FSNode.file "a"])) = .ok [] ∧
    [FSNode.file "a"] ≠ ([] : List FSNode) := by
  constructor
  · simp [finder.FileWalker.walk, finder.walkItems, walkdirTree, walkdirNode,
      finder.walkLoop]
  · simp

/-- Every entry walkdir yields from a node placed below prefix `pfx` has
a strictly longer path than `pfx`. -/
theorem walkdirNode_path_longer (follow : Bool) (md : Nat) (pfx : FPath) (d : Nat)
    (n : FSNode) :
    ∀ e ∈ walkdirNode follow md pfx d n, pfx.length < e.path.length := by
  refine walkdirNode.induct follow md
    (fun pfx d n => ∀ e ∈ walkdirNode follow md pfx d n, pfx.length < e.path.length)
    (fun pfx d cs => ∀ e ∈ walkdirChildren follow md pfx d cs, pfx.length < e.path.length)
    ?_ ?_ ?_ ?_ ?_ ?_ pfx d n
  · intro pfx d n e he
    simp [walkdirNode] at he
    simp [he]
  · intro pfx d n e he
    simp [walkdirNode] at he
    simp [he]
  · intro pfx d n ch ih e he
    simp only [walkdirNode, List.mem_cons] at he
    rcases he with he | he
    · simp [he]
    · rcases Nat.decLt d md with hlt | hlt
      · simp [if_neg hlt] at he
      · have := ih e (by simpa [if_pos hlt] using he)
        simp only [List.length_append, List.length_singleton] at this
        omega
  · intro pfx d n ch ih e he
    simp only [walkdirNode, List.mem_cons] at he
    rcases he with he | he
    · simp [he]
    · split at he
      · have := ih e he
        simp only [List.length_append, List.length_singleton] at this
        omega
      · simp at he
  · intro pfx d e he
    simp [walkdirChildren] at he
  · intro pfx d c rest ih1 ih2 e he
    simp only [walkdirChildren, List.mem_append] at he
    rcases he with he | he
    · exact ih1 e he
    · exact ih2 e he

/-- Sibling-list version of `walkdirNode_path_longer`. -/
theorem walkdirChildren_path_longer (follow : Bool) (md : Nat) (pfx : FPath) (d : Nat)
    (cs : List FSNode) :
    ∀ e ∈ walkdirChildren follow md pfx d cs, pfx.length < e.path.length := by
  induction cs with
  | nil => intro e he; simp [walkdirChildren] at he
  | cons c rest ih =>
      intro e he
      rw [walkdirChildren] at he
      rcases List.mem_append.mp he with h | h
      · exact walkdirNode_path_longer follow md pfx d c e h
      · exact ih e h

/-- The walkdir stream of a root starts with the root entry and no later
entry carries the root path. -/
theorem walkdirTree_head_root (follow : Bool) (md : Nat) (root : FSNode) :
    ∃ e0 rest, walkdirTree follow md root = e0 :: rest ∧ e0.path = rootPath root ∧
      ∀ e ∈ rest, e.path ≠ rootPath root := by
  cases root with
  | file n =>
      refine ⟨⟨[n], n, 0, .regular⟩, [], ?_, ?_, ?_⟩
      · simp [walkdirTree, walkdirNode]
      · simp [rootPath, FSNode.name]
      · intro e he; simp at he
  | symlinkFile n =>
      refine ⟨⟨[n], n, 0, if follow then .regular else .symlink⟩, [], ?_, ?_, ?_⟩
      · simp [walkdirTree, walkdirNode]
      · simp [rootPath, FSNode.name]
      · intro e he; simp at he
  | dir n ch =>
      refine ⟨⟨[n], n, 0, .directory⟩,
        if 0 < md then walkdirChildren follow md [n] 1 ch else [], ?_, ?_, ?_⟩
      · simp [walkdirTree, walkdirNode]
      · simp [rootPath, FSNode.name]
      · intro e he hcontra
        simp only [rootPath, FSNode.name] at hcontra
        split at he
        · have := walkdirChildren_path_longer follow md [n] 1 ch e he
          rw [hcontra] at this
          simp at this
        · simp at he
  | symlinkDir n ch =>
      refine ⟨⟨[n], n, 0, if follow then .directory else .symlink⟩,
        if follow && decide (0 < md) then walkdirChildren follow md [n] 1 ch else [],
        ?_, ?_, ?_⟩
      · simp [walkdirTree, walkdirNode]
      · simp [rootPath, FSNode.name]
      · intro e he hcontra
        simp only [rootPath, FSNode.name] at hcontra
        split at he
        · have := walkdirChildren_path_longer follow md [n] 1 ch e he
          rw [hcontra] at this
          simp at this
        · simp at he

/-- On an error-free stream with the first entry already consumed,
`FileWalker::walk`'s loop collects every entry. -/
theorem walkLoop_ok_stream (o : finder.FindOptions) (es : List DirEntry) :
    finder.walkLoop o false (es.map WalkItem.ok) = .ok es := by
  induction es with
  | nil => simp [finder.walkLoop]
  | cons e rest ih => simp [finder.walkLoop, ih, Except.map]

/-- On an error-free stream with the root already skipped, the iterator
yields every entry as `Ok`. -/
theorem iterDrain_ok_stream (o : finder.FindOptions) (root_path : FPath)
    (es : List DirEntry) :
    finder.iterDrain o root_path true (es.map WalkItem.ok) = es.map Except.ok := by
  induction es with
  | nil => simp [finder.iterDrain]
  | cons e rest ih => simp [finder.iterDrain, ih]

/-- C2 (amended): on every error-free tree and under every option set,
the root entry is absent from the output of `FileWalker::walk` and from
the `Ok` outputs of `FileWalkerIterator`.  (`Finder::find_parallel` does
not share this property; see the counterexample.) -/
theorem C2_walkers_never_report_root (o : finder.FindOptions) (root : FSNode) :
    (∃ es, finder.FileWalker.walk o (finder.walkItems o root) = .ok es ∧
      ∀ e ∈ es, e.path ≠ rootPath root) ∧
    (∀ e, Except.ok e ∈ finder.iterDrain o (rootPath root) false (finder.walkItems o root) →
      e.path ≠ rootPath root) := by
  obtain ⟨e0, rest, htree, hpath, hrest⟩ :=
    walkdirTree_head_root o.follow_links (o.max_depth.getD USIZE_MAX) root
  have hitems : finder.walkItems o root = WalkItem.ok e0 :: rest.map WalkItem.ok := by
    simp [finder.walkItems, htree]
  constructor
  · refine ⟨rest, ?_, hrest⟩
    rw [hitems, finder.FileWalker.walk, finder.walkLoop]
    simp [walkLoop_ok_stream]
  · intro e he
    rw [hitems] at he
    simp only [finder.iterDrain, Bool.not_false, hpath, if_true, iterDrain_ok_stream] at he
    have : e ∈ rest := by
      rcases List.mem_map.mp he with ⟨x, hx, heq⟩
      cases heq
      exact hx
    exact hrest e this

/-- C2 witness: on the concrete tree `r/{a}`, applying the theorem shows
the walker output excludes the root; the entry for `a` is the sole `Ok`
output of the iterator and its path differs from the root path. -/
theorem C2_walkers_never_report_root_witness :
    (⟨["r", "a"], "a", 1, FType.regular⟩ : DirEntry).path ≠
      rootPath (FSNode.dir "r" [FSNode.file "a"]) :=
  (C2_walkers_never_report_root (finder.FindOptions.new 4)
      (FSNode.dir "r" [FSNode.file "a"])).2
    ⟨["r", "a"], "a", 1, FType.regular⟩
    (by simp [finder.iterDrain, finder.walkItems, walkdirTree, walkdirNode,
      walkdirChildren, rootPath, FSNode.name, finder.FindOptions.new, USIZE_MAX])

/-- C2 counterexample to the claim as stated: `Finder::find_parallel`
never skips the root entry, so on the tree `r/{a}` with a filter that
matches everything the root path `r` appears in its output. -/
theorem C2_counterexample_find_parallel_reports_root :
    rootPath (FSNode.dir "r" [FSNode.file "a"]) ∈
      (finder.Finder.find_parallel (finder.Finder.new (finder.FindOptions.new 4)) 4
        (FSNode.dir "r" [FSNode.file "a"]) (fun _ => true)).1 := by
  simp [finder.Finder.find_parallel, finder.Finder.new, finder.Finder.parallel_entries,
    finder.FindOptions.new, walkdirTree, walkdirNode, walkdirChildren,
    finder.startsWithDot, rootPath, FSNode.name, USIZE_MAX]

/-- C4: for a traversal-time error on an entry (a walkdir error carrying
the entry's path): a permission-denied I/O error is skipped (the walk
continues on the rest of the stream) when `ignore_permission_errors` is
true and aborts the walk with `FindError::PermissionDenied` when it is
false; every other I/O error is skipped when `ignore_io_errors` is true
and aborts with `FindError::FilesystemError` when it is false.  This
holds for `FileWalker::walk`'s loop and for the `FileWalkerIterator`
item sequence, in every loop state. -/
theorem C4_error_policy (o : finder.FindOptions) (w : WalkError) (p : FPath)
    (rest : List WalkItem) (is_first : Bool) (root_path : FPath) (skip_root : Bool)
    (hp : w.path = some p) :
    (w.io_kind = some .permissionDenied →
      finder.walkLoop o is_first (.err w :: rest) =
        (if o.ignore_permission_errors then finder.walkLoop o is_first rest
         else .error (.PermissionDenied p)) ∧
      finder.iterDrain o root_path skip_root (.err w :: rest) =
        (if o.ignore_permission_errors then finder.iterDrain o root_path skip_root rest
         else .error (.PermissionDenied p) ::
           finder.iterDrain o root_path skip_root rest)) ∧
    (∀ k, w.io_kind = some k → k ≠ .permissionDenied →
      finder.walkLoop o is_first (.err w :: rest) =
        (if o.ignore_io_errors then finder.walkLoop o is_first rest
         else .error (.FilesystemError k p)) ∧
      finder.iterDrain o root_path skip_root (.err w :: rest) =
        (if o.ignore_io_errors then finder.iterDrain o root_path skip_root rest
         else .error (.FilesystemError k p) ::
           finder.iterDrain o root_path skip_root rest)) := by
  constructor
  · intro hk
    constructor
    · cases h : o.ignore_permission_errors <;>
        simp [finder.walkLoop, hp, hk, h]
    · cases h : o.ignore_permission_errors <;>
        simp [finder.iterDrain, hp, hk, h]
  · intro k hk hne
    constructor
    · cases k with
      | permissionDenied => exact absurd rfl hne
      | notFound => cases h : o.ignore_io_errors <;> simp [finder.walkLoop, hp, hk, h]
      | otherKind => cases h : o.ignore_io_errors <;> simp [finder.walkLoop, hp, hk, h]
    · cases k with
      | permissionDenied => exact absurd rfl hne
      | notFound => cases h : o.ignore_io_errors <;> simp [finder.iterDrain, hp, hk, h]
      | otherKind => cases h : o.ignore_io_errors <;> simp [finder.iterDrain, hp, hk, h]

/-- C4 witness: with the default toggles (`ignore_permission_errors =
true`, `ignore_io_errors = false`), a permission error on an entry is
skipped by both walkers while another I/O error aborts both with
`FilesystemError`; with both toggles flipped, the permission error
aborts with `PermissionDenied` and the other I/O error is skipped. -/
theorem C4_error_policy_witness :
    finder.walkLoop ⟨none, false, true, false, true, 4, 1, 10, true⟩ true
        [.err ⟨some ["x"], some .permissionDenied, "m"⟩] = .ok [] ∧
    finder.iterDrain ⟨none, false, true, false, true, 4, 1, 10, true⟩ ["r"] false
        [.err ⟨some ["x"], some .permissionDenied, "m"⟩] = [] ∧
    finder.walkLoop ⟨none, false, true, false, true, 4, 1, 10, true⟩ true
        [.err ⟨some ["x"], some .otherKind, "m"⟩] =
      .error (.FilesystemError .otherKind ["x"]) ∧
    finder.iterDrain ⟨none, false, true, false, true, 4, 1, 10, true⟩ ["r"] false
        [.err ⟨some ["x"], some .otherKind, "m"⟩] =
      [.error (.FilesystemError .otherKind ["x"])] ∧
    finder.walkLoop ⟨none, false, false, true, true, 4, 1, 10, true⟩ true
        [.err ⟨some ["x"], some .permissionDenied, "m"⟩] =
      .error (.PermissionDenied ["x"]) ∧
    finder.iterDrain ⟨none, false, false, true, true, 4, 1, 10, true⟩ ["r"] false
        [.err ⟨some ["x"], some .permissionDenied, "m"⟩] =
      [.error (.PermissionDenied ["x"])] ∧
    finder.walkLoop ⟨none, false, false, true, true, 4, 1, 10, true⟩ true
        [.err ⟨some ["x"], some .notFound, "m"⟩] = .ok [] := by
  have h1 := C4_error_policy ⟨none, false, true, false, true, 4, 1, 10, true⟩
    ⟨some ["x"], some .permissionDenied, "m"⟩ ["x"] [] true ["r"] false rfl
  have h2 := C4_error_policy ⟨none, false, true, false, true, 4, 1, 10, true⟩
    ⟨some ["x"], some .otherKind, "m"⟩ ["x"] [] true ["r"] false rfl
  have h3 := C4_error_policy ⟨none, false, false, true, true, 4, 1, 10, true⟩
    ⟨some ["x"], some .permissionDenied, "m"⟩ ["x"] [] true ["r"] false rfl
  have h4 := C4_error_policy ⟨none, false, false, true, true, 4, 1, 10, true⟩
    ⟨some ["x"], some .notFound, "m"⟩ ["x"] [] true ["r"] false rfl
  refine ⟨?_, ?_, ?_, ?_, ?_, ?_, ?_⟩
  · exact ((h1.1 rfl).1).trans (by simp [finder.walkLoop])
  · exact ((h1.1 rfl).2).trans (by simp [finder.iterDrain])
  · exact ((h2.2 .otherKind rfl (by simp)).1).trans (by simp)
  · exact ((h2.2 .otherKind rfl (by simp)).2).trans (by simp [finder.iterDrain])
  · exact ((h3.1 rfl).1).trans (by simp)
  · exact ((h3.1 rfl).2).trans (by simp [finder.iterDrain])
  · exact ((h4.2 .notFound rfl (by simp)).1).trans (by simp [finder.walkLoop])

/-- C5 (amended): with auto-adjustment enabled and a well-formed bound
pair (`min_threads ≤ max_threads`), `adjust_thread_count` returns
`min_threads` when the recorded directory count is 0, and its result
always lies within `[min_threads, min(max_threads, max(cpu_count,
min_threads))]`.  (Without `min_threads ≤ max_threads` the interval is
empty and the bound fails; see the counterexample.) -/
theorem C5_adjust_thread_count_bounds (cpu : Nat) (p : AdaptiveThreadPool)
    (h1 : p.config.auto_adjust = true) :
    (p.directory_count = 0 →
      (AdaptiveThreadPool.adjust_thread_count cpu p).1 = p.config.min_threads) ∧
    (p.config.min_threads ≤ p.config.max_threads →
      p.config.min_threads ≤ (AdaptiveThreadPool.adjust_thread_count cpu p).1 ∧
      (AdaptiveThreadPool.adjust_thread_count cpu p).1 ≤
        Nat.min p.config.max_threads (Nat.max cpu p.config.min_threads)) := by
  rw [AdaptiveThreadPool.adjust_thread_count]
  simp only [h1, Bool.not_true, Bool.false_eq_true, if_false]
  by_cases hd : p.directory_count = 0 <;> simp [hd] <;> omega

/-- C5 witness: a pool with bounds `[1, 4]`, 0 recorded directories and
auto-adjust on, sized for 2 CPUs, returns exactly `min_threads = 1`,
inside the claimed interval. -/
theorem C5_adjust_thread_count_bounds_witness :
    (AdaptiveThreadPool.adjust_thread_count 2 ⟨⟨1, 4, 10, true⟩, 0, 1⟩).1 = 1 ∧
    1 ≤ (AdaptiveThreadPool.adjust_thread_count 2 ⟨⟨1, 4, 10, true⟩, 0, 1⟩).1 ∧
    (AdaptiveThreadPool.adjust_thread_count 2 ⟨⟨1, 4, 10, true⟩, 0, 1⟩).1 ≤
      Nat.min 4 (Nat.max 2 1) := by
  have h := C5_adjust_thread_count_bounds 2 ⟨⟨1, 4, 10, true⟩, 0, 1⟩ rfl
  exact ⟨h.1 rfl, h.2 (by decide)⟩

/-- C5 counterexample to the claim as stated: nothing validates
`min_threads ≤ max_threads`; with `min_threads = 5`, `max_threads = 2`,
4 CPUs and 0 recorded directories, the function returns 5, which is not
within the claimed interval `[5, min(2, max(4, 5))] = [5, 2]`. -/
theorem C5_counterexample_min_above_max :
    (AdaptiveThreadPool.adjust_thread_count 4 ⟨⟨5, 2, 1, true⟩, 0, 5⟩).1 = 5 ∧
    ¬ ((AdaptiveThreadPool.adjust_thread_count 4 ⟨⟨5, 2, 1, true⟩, 0, 5⟩).1 ≤
        Nat.min 2 (Nat.max 4 5)) := by
  constructor
  · simp [AdaptiveThreadPool.adjust_thread_count]
  · simp [AdaptiveThreadPool.adjust_thread_count]

/-- C6: `MultiNameFilter::new` on any pattern list containing an empty
string fails with the invalid-pattern error (`PatternError`) during the
up-front validation, before any filter is built or any matching occurs;
no filter value is returned. -/
theorem C6_multi_name_filter_empty_pattern (patterns : List String) (ignore_case : Bool)
    (h : "" ∈ patterns) :
    MultiNameFilter.new patterns ignore_case =
      .error (.PatternError "Empty pattern is not allowed") := by
  have hv : MultiNameFilter.validate_patterns patterns =
      .error (.PatternError "Empty pattern is not allowed") := by
    induction patterns with
    | nil => cases h
    | cons p rest ih =>
        rcases List.mem_cons.mp h with hp | hp
        · simp [MultiNameFilter.validate_patterns, ← hp, String.isEmpty]
        · by_cases hpe : p.isEmpty
          · simp [MultiNameFilter.validate_patterns, hpe]
          · simp [MultiNameFilter.validate_patterns, hpe, ih hp]
  rw [MultiNameFilter.new, hv]
  rfl

/-- C6 witness: the singleton list holding the empty pattern is rejected
at construction. -/
theorem C6_multi_name_filter_empty_pattern_witness :
    MultiNameFilter.new [""] false =
      .error (.PatternError "Empty pattern is not allowed") :=
  C6_multi_name_filter_empty_pattern [""] false (by simp)

/-- C7: for a `NameFilter` built from pattern `*.txt`, the
case-sensitive filter matches the name `a.txt` and rejects `b.TXT`,
while the case-insensitive filter (which lower-cases both pattern and
name) matches both. -/
theorem C7_name_filter_case_sensitivity :
    (NameFilter.new "*.txt").map
        (fun f => (f.matchesName "a.txt", f.matchesName "b.TXT")) =
      .ok (true, false) ∧
    (NameFilter.new_ignore_case "*.txt").map
        (fun f => (f.matchesName "a.txt", f.matchesName "b.TXT")) =
      .ok (true, true) := by
  constructor
  · rfl
  · rfl

/-- C8: `Finder::with_filter` drops its filter argument and returns the
finder unchanged, so a finder built from options `o` finds exactly the
same results with or without an interposed `with_filter`, and no state of
the finder is modified. -/
theorem C8_with_filter_is_identity (f : finder.Finder) (g : DirEntry → Bool)
    (o : finder.FindOptions) (h : DirEntry → Bool) (cpu : Nat) (root : FSNode) :
    f.with_filter g = f ∧
    ((finder.Finder.new o).with_filter g).find cpu root h =
      (finder.Finder.new o).find cpu root h :=
  ⟨rfl, rfl⟩

/-- C9: `Finder::find` delegates directly to `Finder::find_parallel`:
for every finder, root and filter the two return the same value, so the
public API has no sequential path. -/
theorem C9_find_is_find_parallel (f : finder.Finder) (cpu : Nat) (root : FSNode)
    (filter : DirEntry → Bool) :
    f.find cpu root filter = f.find_parallel cpu root filter :=
  rfl

/-- C10: with `ignore_hidden = true`, `Finder::find_parallel` keeps an
entry of the walk exactly when the entry's own base name does not begin
with `.` and the supplied filter accepts it; the walk itself is not
pruned, so entries inside hidden directories are still visited and
reported when their own name is not hidden. -/
theorem C10_hidden_filter_own_name_only (f : finder.Finder) (root : FSNode)
    (filter : DirEntry → Bool) (e : DirEntry)
    (h : f.options.ignore_hidden = true) :
    e ∈ f.parallel_entries root filter ↔
      e ∈ walkdirTree f.options.follow_links (f.options.max_depth.getD USIZE_MAX) root ∧
        finder.startsWithDot e.file_name = false ∧ filter e = true := by
  simp only [finder.Finder.parallel_entries, List.mem_filter, h, Bool.not_true,
    Bool.false_or, Bool.not_eq_true']
  tauto

/-- C10 witness: on the tree `r/{.h/{a}}` (a non-hidden file inside a
hidden directory) with the default options, the entry for `a` is
reported even though its parent directory is hidden, because only the
entry's own name is tested. -/
theorem C10_hidden_filter_own_name_only_witness :
    (⟨["r", ".h", "a"], "a", 2, FType.regular⟩ : DirEntry) ∈
      (finder.Finder.new (finder.FindOptions.new 4)).parallel_entries
        (FSNode.dir "r" [FSNode.dir ".h" [FSNode.file "a"]]) (fun _ => true) := by
  refine (C10_hidden_filter_own_name_only (finder.Finder.new (finder.FindOptions.new 4))
    (FSNode.dir "r" [FSNode.dir ".h" [FSNode.file "a"]]) (fun _ => true)
    ⟨["r", ".h", "a"], "a", 2, FType.regular⟩ rfl).mpr ⟨?_, ?_, rfl⟩
  · simp [finder.Finder.new, finder.FindOptions.new, walkdirTree, walkdirNode,
      walkdirChildren, USIZE_MAX]
  · rfl
